import Mathlib

/-!
Shallow embedding of the chat-timeline assignment pipeline of
`src/components/ChatExample.tsx` (the "Timeline Assigner").

Calendar dates are modelled as integers counting days, truncated to
midnight, with day-of-week = date mod 7 following the JavaScript
convention (0 = Sunday, ..., 6 = Saturday); quantifying over all
integer dates covers every alignment of the week.  Times of day are
modelled as structured 12-hour clock values, mirroring the literal
time strings of the source ("9:07 AM" etc.); `parseTimeToHour`
reproduces the source's string-to-24-hour conversion arithmetic.
-/

namespace NoHello

/-- Sender of a message: `you` is the unconstrained user, `support`
the business-hours-constrained agent. -/
inductive Sender
  | you
  | support
deriving DecidableEq, Repr

/-- The `type` prop of the component: selects the conversation script. -/
inductive ConvType
  | bad
  | good
deriving DecidableEq, Repr

/-- Half-day marker of a 12-hour clock time string. -/
inductive Period
  | AM
  | PM
deriving DecidableEq, Repr

/-- A literal time string such as "9:07 AM", kept structured:
written hour (1-12), minute, and AM/PM marker. -/
structure TimeS where
  hour : Nat
  minute : Nat
  period : Period
deriving DecidableEq, Repr

/-- Source constant BUSINESS_HOUR_START = 9. -/
def BUSINESS_HOUR_START : Nat := 9

/-- Source constant BUSINESS_HOUR_END = 17. -/
def BUSINESS_HOUR_END : Nat := 17

/-- Embeds `parseTimeToHour`: the 12-hour to 24-hour conversion the
source performs after the regex match (the regex always matches the
literal candidate times, so the structured value is the match). -/
def parseTimeToHour (t : TimeS) : Nat :=
  match t.period with
  | .PM => if t.hour ≠ 12 then t.hour + 12 else t.hour
  | .AM => if t.hour = 12 then 0 else t.hour

/-- Embeds `isWithinBusinessHours`. -/
def isWithinBusinessHours (t : TimeS) : Bool :=
  decide (BUSINESS_HOUR_START ≤ parseTimeToHour t) &&
    decide (parseTimeToHour t ≤ BUSINESS_HOUR_END)

/-- Minutes since midnight of a time value, 24-hour; used to state
chronological ("time of day") ordering of timestamps. -/
def timeOfDayMinutes (t : TimeS) : Nat :=
  parseTimeToHour t * 60 + t.minute

/-- JavaScript `Date.getDay` on a day-count date: 0 = Sunday, ...,
6 = Saturday. -/
def dayOfWeek (d : Int) : Int := d % 7

/-- Embeds `isWeekend`. -/
def isWeekend (d : Int) : Bool :=
  decide (dayOfWeek d = 0) || decide (dayOfWeek d = 6)

/-- Weekday test used by `generateDates` and by the weekend-avoidance
search (`dayOfWeek >= 1 && dayOfWeek <= 5`). -/
def isWeekdayDate (d : Int) : Bool :=
  decide (1 ≤ dayOfWeek d) && decide (dayOfWeek d ≤ 5)

/-- The constant "9:00 AM" produced by the business-hours adjustment. -/
def nineAM : TimeS := ⟨9, 0, .AM⟩

/-- The while-loop inside `getNextBusinessDay`: step forward while the
date is a weekend. -/
def skipWeekend (d : Int) : Int :=
  if h : isWeekend d then skipWeekend (d + 1) else d
termination_by ((1 - d) % 7).toNat
decreasing_by
  simp only [isWeekend, Bool.or_eq_true, decide_eq_true_eq, dayOfWeek] at h
  omega

/-- Embeds `getNextBusinessDay`: the day after `d`, skipping weekends,
at 9 AM (time carried separately by callers). -/
def getNextBusinessDay (d : Int) : Int := skipWeekend (d + 1)

/-- Embeds `adjustToBusinessHours`. -/
def adjustToBusinessHours (date : Int) (timeString : TimeS) : Int × TimeS :=
  if isWeekend date then (getNextBusinessDay date, nineAM)
  else if !isWithinBusinessHours timeString then (getNextBusinessDay date, nineAM)
  else (date, timeString)

/-- Embeds the `AssignedMessage` record. -/
structure AssignedMessage where
  text : String
  sender : Sender
  date : Int
  timestamp : TimeS
  dateBreakIndex : Nat
deriving DecidableEq, Repr

/-- Embeds `conversationScript`. -/
def conversationScript : ConvType → List Sender
  | .bad => [.you, .support, .you, .support, .you, .support, .you, .support]
  | .good => [.you, .support]

/-- Embeds `getSenderForMessage`. -/
def getSenderForMessage (type : ConvType) (index : Nat) : Sender :=
  let script := conversationScript type
  if h : index < script.length then script.get ⟨index, h⟩
  else if index % 2 = 0 then .you else .support

/-- Embeds the `businessHoursTimes` literal list. -/
def businessHoursTimes : List TimeS :=
  [⟨9, 7, .AM⟩, ⟨11, 19, .AM⟩, ⟨2, 0, .PM⟩, ⟨4, 7, .PM⟩]

/-- Embeds the `allTimes` literal list. -/
def allTimes : List TimeS :=
  [⟨9, 7, .AM⟩, ⟨11, 19, .AM⟩, ⟨2, 0, .PM⟩, ⟨4, 7, .PM⟩,
   ⟨5, 26, .PM⟩, ⟨6, 31, .PM⟩, ⟨7, 15, .PM⟩]

/-- Embeds the date-break construction loop at the top of
`generateTimestamps`: break at 0, and at every i > 0 with i even or a
support-to-you sender transition. -/
def dateBreaks (senders : List Sender) : List Nat :=
  0 :: (List.range senders.length).filter (fun i =>
    decide (0 < i) && (decide (i % 2 = 0) ||
      (senders.getD (i - 1) .you == Sender.support &&
        senders.getD i .you == Sender.you)))

/-- Embeds the backward scan locating the enclosing date break of a
message index (first break-start from the end that is ≤ index,
defaulting to 0). -/
def findDateBreakIndex (breaks : List Nat) (index : Nat) : Nat :=
  ((List.range breaks.length).reverse.find?
    (fun i => decide (breaks.getD i 0 ≤ index))).getD 0

/-- Embeds the linear backward mapping of a date-break index onto the
window of available dates, clamped into bounds. -/
def mappedDateIndex (total dbIdx len : Nat) : Nat :=
  (if 0 < total then
    max 0 (min ((len : Int) - 1 - ((total : Int) - 1 - (dbIdx : Int))) ((len : Int) - 1))
  else (len : Int) - 1).toNat

/-- Embeds the weekend-avoidance search for support messages: first
weekday strictly after the mapped index, else first weekday strictly
before it scanning backward, else the mapped index unchanged. -/
def redirectWeekday (dates : List Int) (mIdx : Nat) : Nat :=
  match (List.range dates.length).find?
      (fun i => decide (mIdx < i) && isWeekdayDate (dates.getD i 1)) with
  | some i => i
  | none =>
    match (List.range mIdx).reverse.find?
        (fun i => isWeekdayDate (dates.getD i 1)) with
    | some i => i
    | none => mIdx

/-- Embeds the time-index selection: first message on a date uses
min(break index, last candidate); later ones use previous + 1 clamped
to the last candidate. -/
def selectTimeIndex (times : List TimeS) (dbIdx : Nat) (lastIdx : Option Nat) : Nat :=
  match lastIdx with
  | none => min dbIdx (times.length - 1)
  | some l => if l + 1 ≥ times.length then times.length - 1 else l + 1

/-- Embeds the date re-search after a business-hours rollover: the
window date equal to the adjusted date and not a weekend, else the
first non-weekend window date at or after it, else the original date
unchanged. -/
def rolloverDate (dates : List Int) (date0 : Int) (t : TimeS) : Int :=
  let adjusted := adjustToBusinessHours date0 t
  match (List.range dates.length).find?
      (fun i => decide (dates.getD i 1 = adjusted.1) && !isWeekend (dates.getD i 1)) with
  | some i => dates.getD i 1
  | none =>
    match (List.range dates.length).find?
        (fun i => decide (adjusted.1 ≤ dates.getD i 1) && !isWeekend (dates.getD i 1)) with
    | some i => dates.getD i 1
    | none => date0

/-- One iteration of the `messages.forEach` body of
`generateTimestamps`: threads the last-time-index-per-date map and
produces the assigned message. -/
def timestampStep (breaks : List Nat) (total : Nat) (dates : List Int)
    (st : Int → Option Nat) (index : Nat) (msg : AssignedMessage) :
    (Int → Option Nat) × AssignedMessage :=
  let dbIdx := findDateBreakIndex breaks index
  let mIdx0 := mappedDateIndex total dbIdx dates.length
  let mIdx :=
    if msg.sender == Sender.support && isWeekend (dates.getD mIdx0 1) then
      redirectWeekday dates mIdx0
    else mIdx0
  let date0 := dates.getD mIdx 1
  let times := if msg.sender == Sender.support then businessHoursTimes else allTimes
  let timeIndex := selectTimeIndex times dbIdx (st date0)
  let assignedTime0 := times.getD timeIndex nineAM
  let st2 := fun k => if k = date0 then some timeIndex else st k
  if msg.sender == Sender.support && !isWithinBusinessHours assignedTime0 then
    (st2, { msg with
      date := rolloverDate dates date0 assignedTime0,
      timestamp := (adjustToBusinessHours date0 assignedTime0).2,
      dateBreakIndex := dbIdx })
  else
    (st2, { msg with date := date0, timestamp := assignedTime0, dateBreakIndex := dbIdx })

/-- The fold over messages performed by `generateTimestamps`. -/
def gtGo (breaks : List Nat) (total : Nat) (dates : List Int)
    (st : Int → Option Nat) (index : Nat) :
    List AssignedMessage → List AssignedMessage
  | [] => []
  | msg :: rest =>
    let p := timestampStep breaks total dates st index msg
    p.2 :: gtGo breaks total dates p.1 (index + 1) rest

/-- Embeds `generateTimestamps`. -/
def generateTimestamps (messages : List AssignedMessage)
    (availableDates : List Int) : List AssignedMessage :=
  let breaks := dateBreaks (messages.map (fun m => m.sender))
  gtGo breaks breaks.length availableDates (fun _ => none) 0 messages

/-- Embeds `assignMessagesToUsers` (placeholder date/timestamp of the
first pass are always overwritten by the second pass). -/
def assignMessagesToUsers (rawMessages : List String)
    (availableDates : List Int) (conversationType : ConvType) :
    List AssignedMessage :=
  let assigned := rawMessages.enum.map (fun p =>
    { text := p.2, sender := getSenderForMessage conversationType p.1,
      date := 0, timestamp := nineAM, dateBreakIndex := 0 : AssignedMessage })
  generateTimestamps assigned availableDates

/-- The `generateDates` while loop, made structural on an explicit
iteration budget of 15: the source breaks as soon as `daysBack` would
exceed 14, so the budget is never exhausted and the zero-budget arm is
unreachable. -/
def generateDatesGo (today : Int) : Nat → Nat → Nat → Nat
  | daysBack, weekdayCount, fuel =>
    match fuel with
    | 0 => daysBack
    | fuel + 1 =>
      if weekdayCount < 3 ∨ daysBack < 3 then
        let wc := if isWeekdayDate (today - daysBack) then weekdayCount + 1 else weekdayCount
        let db := daysBack + 1
        if db > 14 then db else generateDatesGo today db wc fuel
      else daysBack

/-- The final `daysBack` computed by the `generateDates` loop. -/
def genDaysBack (today : Int) : Nat := generateDatesGo today 0 0 15

/-- Embeds `generateDates`, parameterised by "today" (a midnight-
truncated day count): the ascending window from `today - daysBack` to
`today`. -/
def generateDates (today : Int) : List Int :=
  (List.range (genDaysBack today + 1)).map
    (fun i : Nat => today - genDaysBack today + (i : Int))

/-- The whole pipeline as invoked by the component: generate the date
window for "today", then assign senders, dates and timestamps. -/
def runPipeline (rawMessages : List String) (type : ConvType) (today : Int) :
    List AssignedMessage :=
  assignMessagesToUsers rawMessages (generateDates today) type

/-- Default message used only to state `getD` lookups in theorems. -/
def mDflt : AssignedMessage :=
  { text := "", sender := .you, date := 0, timestamp := nineAM, dateBreakIndex := 0 }

/-- The window index finally chosen for a support message by
`timestampStep` (the mapped index, weekend-redirected if needed);
abbreviation used to state the step lemmas. -/
def supIdx (breaks : List Nat) (total : Nat) (dates : List Int) (index : Nat) : Nat :=
  if isWeekend (dates.getD
      (mappedDateIndex total (findDateBreakIndex breaks index) dates.length) 1) then
    redirectWeekday dates (mappedDateIndex total (findDateBreakIndex breaks index) dates.length)
  else mappedDateIndex total (findDateBreakIndex breaks index) dates.length

/-- The date finally chosen for a support message by `timestampStep`. -/
def supDate (breaks : List Nat) (total : Nat) (dates : List Int) (index : Nat) : Int :=
  dates.getD (supIdx breaks total dates index) 1

/-- Twelve-message input list exhibiting the within-date ordering
violation at a Thursday current date. -/
def msgs12 : List String :=
  ["m0", "m1", "m2", "m3", "m4", "m5", "m6", "m7", "m8", "m9", "mA", "mB"]

end NoHello

namespace NoHello

/-! ### Basic facts about times, weekdays and the candidate lists -/

lemma weekday_iff_not_weekend (d : Int) :
    isWeekdayDate d = true ↔ isWeekend d = false := by
  unfold isWeekdayDate isWeekend dayOfWeek
  simp only [Bool.and_eq_true, decide_eq_true_eq, Bool.or_eq_false_iff,
    decide_eq_false_iff_not]
  omega

lemma isWeekdayDate_congr {a b : Int} (h : a % 7 = b % 7) :
    isWeekdayDate a = isWeekdayDate b := by
  unfold isWeekdayDate dayOfWeek
  rw [h]

lemma today_mod_cases (t : Int) :
    t % 7 = 0 ∨ t % 7 = 1 ∨ t % 7 = 2 ∨ t % 7 = 3 ∨ t % 7 = 4 ∨ t % 7 = 5 ∨ t % 7 = 6 := by
  omega

lemma selectTimeIndex_lt (times : List TimeS) (dbIdx : Nat) (lastIdx : Option Nat)
    (h : 0 < times.length) :
    selectTimeIndex times dbIdx lastIdx < times.length := by
  unfold selectTimeIndex
  match lastIdx with
  | none => simp only; omega
  | some l => simp only; split <;> omega

lemma bh_getD_within (i : Nat) :
    isWithinBusinessHours (businessHoursTimes.getD i nineAM) = true := by
  by_cases h : i < 4
  · interval_cases i <;> decide
  · rw [List.getD_eq_default _ _ (by simp [businessHoursTimes]; omega)]
    decide

lemma bh_getElem_within (i : Nat) :
    isWithinBusinessHours ((businessHoursTimes[i]?).getD nineAM) = true := by
  rw [← List.getD_eq_getElem?_getD]
  exact bh_getD_within i

lemma getD_mem_of_lt {α : Type} (l : List α) (i : Nat) (d : α) (h : i < l.length) :
    l.getD i d ∈ l := by
  rw [List.getD_eq_getElem l d h]
  exact List.getElem_mem h

/-! ### C5: determinism of the pipeline -/

/-- C5: the pipeline is a deterministic pure function of the message
list, the scenario, and the fixed current date: two invocations with
the same inputs produce identical ordered output. -/
theorem C5_determinism (raw1 raw2 : List String) (t1 t2 : ConvType) (d1 d2 : Int)
    (hraw : raw1 = raw2) (ht : t1 = t2) (hd : d1 = d2) :
    runPipeline raw1 t1 d1 = runPipeline raw2 t2 d2 := by
  rw [hraw, ht, hd]

theorem C5_witness :
    (["x", "y"] : List String) = ["x", "y"] ∧ ConvType.good = ConvType.good ∧
      (4 : Int) = 4 ∧
      runPipeline ["x", "y"] ConvType.good 4 = runPipeline ["x", "y"] ConvType.good 4 :=
  ⟨rfl, rfl, rfl, C5_determinism ["x", "y"] ["x", "y"] ConvType.good ConvType.good 4 4
    rfl rfl rfl⟩

/-! ### C6: sender assignment -/

/-- C6: the assigned sender is the scripted tag at indices within the
scenario script, and otherwise alternates with `you` at even and
`support` at odd indices; the 2-element `good` script on a 10-message
list yields strictly alternating senders. -/
theorem C6_sender_assignment :
    (∀ (type : ConvType) (index : Nat) (h : index < (conversationScript type).length),
      getSenderForMessage type index = (conversationScript type).get ⟨index, h⟩) ∧
    (∀ (type : ConvType) (index : Nat), (conversationScript type).length ≤ index →
      getSenderForMessage type index =
        if index % 2 = 0 then Sender.you else Sender.support) ∧
    (List.range 10).map (getSenderForMessage ConvType.good) =
      [Sender.you, Sender.support, Sender.you, Sender.support, Sender.you,
       Sender.support, Sender.you, Sender.support, Sender.you, Sender.support] := by
  refine ⟨?_, ?_, by decide⟩
  · intro type index h
    unfold getSenderForMessage
    rw [dif_pos h]
  · intro type index h
    unfold getSenderForMessage
    rw [dif_neg (by omega)]

theorem C6_witness :
    (1 < (conversationScript ConvType.bad).length ∧
      getSenderForMessage ConvType.bad 1 = Sender.support) ∧
    ((conversationScript ConvType.good).length ≤ 2 ∧
      getSenderForMessage ConvType.good 2 = Sender.you) :=
  ⟨⟨by decide, (C6_sender_assignment.1 ConvType.bad 1 (by decide)).trans (by decide)⟩,
   ⟨by decide, (C6_sender_assignment.2.1 ConvType.good 2 (by decide)).trans (by decide)⟩⟩

/-! ### C7: date-break partition -/

/-- C7: the date-break start list always begins with index 0, and an
index i > 0 within the message list is a break start exactly when i is
even or the sender transitions from `support` at i-1 to `you` at i. -/
theorem C7_date_breaks (senders : List Sender) :
    (dateBreaks senders).head? = some 0 ∧
    ∀ i, 0 < i → i < senders.length →
      (i ∈ dateBreaks senders ↔
        (i % 2 = 0 ∨ (senders.getD (i - 1) .you = Sender.support ∧
          senders.getD i .you = Sender.you))) := by
  refine ⟨rfl, ?_⟩
  intro i h0 hlen
  unfold dateBreaks
  constructor
  · intro hmem
    rcases List.mem_cons.mp hmem with h | h
    · omega
    · have hp := (List.mem_filter.mp h).2
      simp only [Bool.and_eq_true, Bool.or_eq_true, decide_eq_true_eq, beq_iff_eq] at hp
      tauto
  · intro hcond
    apply List.mem_cons.mpr
    right
    apply List.mem_filter.mpr
    refine ⟨List.mem_range.mpr hlen, ?_⟩
    simp only [Bool.and_eq_true, Bool.or_eq_true, decide_eq_true_eq, beq_iff_eq]
    tauto

theorem C7_witness :
    0 < 2 ∧ 2 < 3 ∧ 2 ∈ dateBreaks [Sender.you, Sender.support, Sender.you] :=
  ⟨by decide, by decide,
    ((C7_date_breaks [Sender.you, Sender.support, Sender.you]).2 2 (by decide)
      (by decide)).mpr (Or.inl (by decide))⟩

end NoHello

namespace NoHello

/-! ### The date window: shape of `generateDates` -/

lemma generateDatesGo_mod (today : Int) :
    ∀ (fuel daysBack wc : Nat),
      generateDatesGo today daysBack wc fuel = generateDatesGo (today % 7) daysBack wc fuel := by
  intro fuel
  induction fuel with
  | zero => intro db wc; rfl
  | succ n ih =>
    intro db wc
    simp only [generateDatesGo]
    have hw : isWeekdayDate (today - db) = isWeekdayDate (today % 7 - db) :=
      isWeekdayDate_congr (by omega)
    rw [hw]
    split
    · split
      · rfl
      · exact ih _ _
    · rfl

lemma genDaysBack_mod (t : Int) : genDaysBack t = genDaysBack (t % 7) := by
  unfold genDaysBack
  exact generateDatesGo_mod t 15 0 0

lemma genDaysBack_ge (t : Int) : 3 ≤ genDaysBack t := by
  rw [genDaysBack_mod]
  rcases today_mod_cases t with h | h | h | h | h | h | h <;> rw [h] <;> decide

lemma genDaysBack_cases (t : Int) :
    genDaysBack t = 3 ∨ genDaysBack t = 4 ∨ genDaysBack t = 5 := by
  rw [genDaysBack_mod]
  rcases today_mod_cases t with h | h | h | h | h | h | h <;> rw [h] <;> decide

lemma generateDates_length (t : Int) :
    (generateDates t).length = genDaysBack t + 1 := by
  unfold generateDates
  rw [List.length_map, List.length_range]

lemma generateDates_getD (t : Int) (i : Nat) (d : Int) (h : i < genDaysBack t + 1) :
    (generateDates t).getD i d = t - genDaysBack t + i := by
  unfold generateDates
  have hlen : i < ((List.range (genDaysBack t + 1)).map
      (fun i : Nat => t - genDaysBack t + (i : Int))).length := by
    rw [List.length_map, List.length_range]; exact h
  rw [List.getD_eq_getElem _ d hlen, List.getElem_map, List.getElem_range]

lemma generateDates_weekdays (t : Int) :
    3 ≤ (generateDates t).countP (fun d => isWeekdayDate d) := by
  have hdb : genDaysBack t = genDaysBack (t % 7) := genDaysBack_mod t
  unfold generateDates
  rw [List.countP_map, hdb]
  have hcong : (List.range (genDaysBack (t % 7) + 1)).countP
        ((fun d => isWeekdayDate d) ∘ fun i : Nat => t - (genDaysBack (t % 7) : Int) + (i : Int)) =
      (List.range (genDaysBack (t % 7) + 1)).countP
        ((fun d => isWeekdayDate d) ∘ fun i : Nat => t % 7 - (genDaysBack (t % 7) : Int) + (i : Int)) := by
    apply List.countP_congr
    intro i _
    simp only [Function.comp_apply]
    rw [isWeekdayDate_congr (a := t - (genDaysBack (t % 7) : Int) + (i : Int))
      (b := t % 7 - (genDaysBack (t % 7) : Int) + (i : Int)) (by omega)]
  rw [hcong]
  rcases today_mod_cases t with h | h | h | h | h | h | h <;> rw [h] <;> decide

/-- C4: for every fixed current date, the generated date window has
length at least 4, is strictly ascending day by day with no gaps or
duplicates, ends on the current date, and contains at least 3 weekday
entries. -/
theorem C4_date_window (today : Int) :
    4 ≤ (generateDates today).length ∧
    (∀ i, i + 1 < (generateDates today).length →
      (generateDates today).getD i 0 + 1 = (generateDates today).getD (i + 1) 0) ∧
    (generateDates today).getD ((generateDates today).length - 1) 0 = today ∧
    3 ≤ (generateDates today).countP (fun d => isWeekdayDate d) := by
  have hlen := generateDates_length today
  have hge := genDaysBack_ge today
  refine ⟨by omega, ?_, ?_, generateDates_weekdays today⟩
  · intro i hi
    rw [hlen] at hi
    rw [generateDates_getD today i 0 (by omega), generateDates_getD today (i + 1) 0 (by omega)]
    push_cast
    ring
  · rw [hlen]
    rw [generateDates_getD today (genDaysBack today + 1 - 1) 0 (by omega)]
    have : ((genDaysBack today + 1 - 1 : Nat) : Int) = (genDaysBack today : Int) := by omega
    rw [this]
    ring

theorem C4_witness :
    0 + 1 < (generateDates 4).length ∧
    (generateDates 4).getD 0 0 + 1 = (generateDates 4).getD 1 0 :=
  ⟨by decide, (C4_date_window 4).2.1 0 (by decide)⟩

end NoHello

namespace NoHello

/-! ### Shape of one `timestampStep`, by sender -/

lemma timestampStep_support_snd (breaks : List Nat) (total : Nat) (dates : List Int)
    (st : Int → Option Nat) (index : Nat) (msg : AssignedMessage)
    (hs : msg.sender = Sender.support) :
    (timestampStep breaks total dates st index msg).2 =
      { msg with
        date := supDate breaks total dates index,
        timestamp := businessHoursTimes.getD
          (selectTimeIndex businessHoursTimes (findDateBreakIndex breaks index)
            (st (supDate breaks total dates index))) nineAM,
        dateBreakIndex := findDateBreakIndex breaks index } := by
  unfold timestampStep supDate supIdx
  rw [hs]
  simp [bh_getD_within, bh_getElem_within]

lemma timestampStep_you_snd (breaks : List Nat) (total : Nat) (dates : List Int)
    (st : Int → Option Nat) (index : Nat) (msg : AssignedMessage)
    (hs : msg.sender = Sender.you) :
    (timestampStep breaks total dates st index msg).2 =
      { msg with
        date := dates.getD
          (mappedDateIndex total (findDateBreakIndex breaks index) dates.length) 1,
        timestamp := allTimes.getD
          (selectTimeIndex allTimes (findDateBreakIndex breaks index)
            (st (dates.getD
              (mappedDateIndex total (findDateBreakIndex breaks index) dates.length) 1))) nineAM,
        dateBreakIndex := findDateBreakIndex breaks index } := by
  unfold timestampStep
  rw [hs]
  simp [show (Sender.you == Sender.support) = false from rfl]

lemma timestampStep_sender (breaks : List Nat) (total : Nat) (dates : List Int)
    (st : Int → Option Nat) (index : Nat) (msg : AssignedMessage) :
    (timestampStep breaks total dates st index msg).2.sender = msg.sender := by
  cases hsm : msg.sender
  · rw [timestampStep_you_snd _ _ _ _ _ _ hsm]
    exact hsm
  · rw [timestampStep_support_snd _ _ _ _ _ _ hsm]
    exact hsm

lemma gtGo_mem (breaks : List Nat) (total : Nat) (dates : List Int) :
    ∀ (msgs : List AssignedMessage) (st : Int → Option Nat) (idx : Nat)
      (m : AssignedMessage), m ∈ gtGo breaks total dates st idx msgs →
      ∃ st2 idx2 msg2, msg2 ∈ msgs ∧
        m = (timestampStep breaks total dates st2 idx2 msg2).2 := by
  intro msgs
  induction msgs with
  | nil => intro st idx m h; simp [gtGo] at h
  | cons msg rest ih =>
    intro st idx m h
    simp only [gtGo] at h
    rcases List.mem_cons.mp h with h | h
    · exact ⟨st, idx, msg, List.mem_cons_self _ _, h⟩
    · obtain ⟨st2, idx2, msg2, hmem, heq⟩ := ih _ _ _ h
      exact ⟨st2, idx2, msg2, List.mem_cons_of_mem _ hmem, heq⟩

/-! ### Bounds of the chosen window indices -/

lemma mappedDateIndex_lt (total dbIdx len : Nat) (h : 0 < len) :
    mappedDateIndex total dbIdx len < len := by
  unfold mappedDateIndex
  split <;> omega

lemma redirectWeekday_lt (dates : List Int) (mIdx : Nat) (h : mIdx < dates.length) :
    redirectWeekday dates mIdx < dates.length := by
  unfold redirectWeekday
  rcases hf : (List.range dates.length).find?
      (fun i => decide (mIdx < i) && isWeekdayDate (dates.getD i 1)) with _ | i
  · rcases hb : (List.range mIdx).reverse.find?
        (fun i => isWeekdayDate (dates.getD i 1)) with _ | i
    · exact h
    · have hmem := List.mem_range.mp (List.mem_reverse.mp (List.mem_of_find?_eq_some hb))
      show i < dates.length
      omega
  · show i < dates.length
    exact List.mem_range.mp (List.mem_of_find?_eq_some hf)

lemma supIdx_lt (breaks : List Nat) (total : Nat) (dates : List Int) (index : Nat)
    (h : 0 < dates.length) :
    supIdx breaks total dates index < dates.length := by
  unfold supIdx
  split
  · exact redirectWeekday_lt _ _ (mappedDateIndex_lt _ _ _ h)
  · exact mappedDateIndex_lt _ _ _ h

/-! ### Weekday guarantee for the support-chosen index -/

lemma redirectWeekday_weekday (dates : List Int) (mIdx : Nat)
    (hwknd : isWeekend (dates.getD mIdx 1) = true)
    (hex : ∃ j, j < dates.length ∧ isWeekdayDate (dates.getD j 1) = true) :
    isWeekdayDate (dates.getD (redirectWeekday dates mIdx) 1) = true := by
  unfold redirectWeekday
  rcases hf : (List.range dates.length).find?
      (fun i => decide (mIdx < i) && isWeekdayDate (dates.getD i 1)) with _ | i
  · rcases hb : (List.range mIdx).reverse.find?
        (fun i => isWeekdayDate (dates.getD i 1)) with _ | i
    · exfalso
      obtain ⟨j, hj, hwd⟩ := hex
      rcases Nat.lt_trichotomy j mIdx with hlt2 | heq | hgt
      · have := List.find?_eq_none.mp hb j
          (List.mem_reverse.mpr (List.mem_range.mpr hlt2))
        exact this hwd
      · rw [heq] at hwd
        rw [(weekday_iff_not_weekend _).mp hwd] at hwknd
        exact Bool.false_ne_true hwknd
      · have := List.find?_eq_none.mp hf j (List.mem_range.mpr hj)
        simp only [Bool.and_eq_true, decide_eq_true_eq] at this
        exact this ⟨hgt, hwd⟩
    · show isWeekdayDate (dates.getD i 1) = true
      have hp := List.find?_some hb
      exact hp
  · show isWeekdayDate (dates.getD i 1) = true
    have := List.find?_some hf
    simp only [Bool.and_eq_true, decide_eq_true_eq] at this
    exact this.2

lemma supDate_weekday (breaks : List Nat) (total : Nat) (dates : List Int) (index : Nat)
    (hex : ∃ j, j < dates.length ∧ isWeekdayDate (dates.getD j 1) = true) :
    isWeekdayDate (supDate breaks total dates index) = true := by
  unfold supDate supIdx
  split
  · next hwknd =>
    exact redirectWeekday_weekday _ _ hwknd hex
  · next hwknd =>
    rw [weekday_iff_not_weekend]
    simpa using hwknd

end NoHello

namespace NoHello

/-! ### C9, C1, C10: invariants of the assigned output -/

lemma within_iff (t : TimeS) :
    isWithinBusinessHours t = true ↔
      9 ≤ parseTimeToHour t ∧ parseTimeToHour t ≤ 17 := by
  unfold isWithinBusinessHours BUSINESS_HOUR_START BUSINESS_HOUR_END
  simp

lemma window_weekday_exists (today : Int) :
    ∃ j, j < (generateDates today).length ∧
      isWeekdayDate ((generateDates today).getD j 1) = true := by
  have h3 := generateDates_weekdays today
  have hpos : 0 < (generateDates today).countP (fun d => isWeekdayDate d) := by omega
  obtain ⟨a, hmem, ha⟩ := List.countP_pos_iff.mp hpos
  obtain ⟨n, hn, heq⟩ := List.getElem_of_mem hmem
  refine ⟨n, hn, ?_⟩
  rw [List.getD_eq_getElem _ _ hn, heq]
  exact ha

/-- C9: for every input, the timestamp selected for a support message
is always drawn from the 4-element business-hours candidate list and
satisfies `isWithinBusinessHours`; in consequence the rollover guard
`!isWithinBusinessHours assignedTime` is false for every support
message and the `adjustToBusinessHours` branch is never executed. -/
theorem C9_support_time_from_business_list (raw : List String) (dates : List Int)
    (type : ConvType) :
    ∀ m ∈ assignMessagesToUsers raw dates type, m.sender = Sender.support →
      m.timestamp ∈ businessHoursTimes ∧ isWithinBusinessHours m.timestamp = true := by
  intro m hm hsup
  simp only [assignMessagesToUsers, generateTimestamps] at hm
  obtain ⟨st2, idx2, msg2, _, heq⟩ := gtGo_mem _ _ _ _ _ _ _ hm
  have hsm : msg2.sender = Sender.support := by
    rw [heq, timestampStep_sender] at hsup
    exact hsup
  rw [heq, timestampStep_support_snd _ _ _ _ _ _ hsm]
  constructor
  · show businessHoursTimes.getD _ nineAM ∈ businessHoursTimes
    exact getD_mem_of_lt _ _ _ (selectTimeIndex_lt _ _ _ (by decide))
  · show isWithinBusinessHours (businessHoursTimes.getD _ nineAM) = true
    exact bh_getD_within _

theorem C9_witness :
    ((assignMessagesToUsers ["a", "b"] [8, 9] ConvType.good).getD 1 mDflt ∈
        assignMessagesToUsers ["a", "b"] [8, 9] ConvType.good) ∧
    ((assignMessagesToUsers ["a", "b"] [8, 9] ConvType.good).getD 1 mDflt).sender =
      Sender.support ∧
    ((assignMessagesToUsers ["a", "b"] [8, 9] ConvType.good).getD 1 mDflt).timestamp ∈
      businessHoursTimes :=
  ⟨by decide, by decide,
    (C9_support_time_from_business_list ["a", "b"] [8, 9] ConvType.good _
      (by decide) (by decide)).1⟩

lemma timestampStep_support_props (breaks : List Nat) (total : Nat) (dates : List Int)
    (st : Int → Option Nat) (idx : Nat) (msg : AssignedMessage)
    (hs : msg.sender = Sender.support)
    (hex : ∃ j, j < dates.length ∧ isWeekdayDate (dates.getD j 1) = true) :
    dayOfWeek ((timestampStep breaks total dates st idx msg).2.date) ≠ 0 ∧
    dayOfWeek ((timestampStep breaks total dates st idx msg).2.date) ≠ 6 ∧
    9 ≤ parseTimeToHour ((timestampStep breaks total dates st idx msg).2.timestamp) ∧
    parseTimeToHour ((timestampStep breaks total dates st idx msg).2.timestamp) ≤ 17 := by
  rw [timestampStep_support_snd _ _ _ _ _ _ hs]
  have hwd := supDate_weekday breaks total dates idx hex
  simp only [isWeekdayDate, Bool.and_eq_true, decide_eq_true_eq] at hwd
  have htime := (within_iff _).mp (bh_getD_within (selectTimeIndex businessHoursTimes
    (findDateBreakIndex breaks idx) (st (supDate breaks total dates idx))))
  refine ⟨?_, ?_, ?_, ?_⟩
  · show dayOfWeek (supDate breaks total dates idx) ≠ 0
    omega
  · show dayOfWeek (supDate breaks total dates idx) ≠ 6
    omega
  · exact htime.1
  · exact htime.2

/-- C1: for every message list, scenario, and fixed current date,
every support output message has a date whose day-of-week is neither
Sunday (0) nor Saturday (6) and a timestamp whose hour lies within
9:00 to 17:00 inclusive. -/
theorem C1_support_weekday_business_hours (raw : List String) (type : ConvType)
    (today : Int) :
    ∀ m ∈ runPipeline raw type today, m.sender = Sender.support →
      dayOfWeek m.date ≠ 0 ∧ dayOfWeek m.date ≠ 6 ∧
      9 ≤ parseTimeToHour m.timestamp ∧ parseTimeToHour m.timestamp ≤ 17 := by
  intro m hm hsup
  simp only [runPipeline, assignMessagesToUsers, generateTimestamps] at hm
  obtain ⟨st2, idx2, msg2, _, heq⟩ := gtGo_mem _ _ _ _ _ _ _ hm
  have hsm : msg2.sender = Sender.support := by
    rw [heq, timestampStep_sender] at hsup
    exact hsup
  rw [heq]
  exact timestampStep_support_props _ _ _ st2 idx2 msg2 hsm
    (window_weekday_exists today)

theorem C1_witness :
    ((runPipeline ["a", "b"] ConvType.good 4).getD 1 mDflt ∈
        runPipeline ["a", "b"] ConvType.good 4) ∧
    ((runPipeline ["a", "b"] ConvType.good 4).getD 1 mDflt).sender = Sender.support ∧
    dayOfWeek ((runPipeline ["a", "b"] ConvType.good 4).getD 1 mDflt).date ≠ 0 :=
  ⟨by decide, by decide,
    (C1_support_weekday_business_hours ["a", "b"] ConvType.good 4 _
      (by decide) (by decide)).1⟩

/-- C10: for every non-empty date window and every message list, every
output message's date is an element of the window. -/
theorem C10_dates_in_window (raw : List String) (dates : List Int) (type : ConvType)
    (hne : dates ≠ []) :
    ∀ m ∈ assignMessagesToUsers raw dates type, m.date ∈ dates := by
  intro m hm
  have hlen : 0 < dates.length := List.length_pos.mpr hne
  simp only [assignMessagesToUsers, generateTimestamps] at hm
  obtain ⟨st2, idx2, msg2, _, heq⟩ := gtGo_mem _ _ _ _ _ _ _ hm
  cases hsm : msg2.sender
  · rw [heq, timestampStep_you_snd _ _ _ _ _ _ hsm]
    show dates.getD _ 1 ∈ dates
    exact getD_mem_of_lt _ _ _ (mappedDateIndex_lt _ _ _ hlen)
  · rw [heq, timestampStep_support_snd _ _ _ _ _ _ hsm]
    show dates.getD (supIdx _ _ dates idx2) 1 ∈ dates
    exact getD_mem_of_lt _ _ _ (supIdx_lt _ _ _ _ hlen)

theorem C10_witness :
    ([5, 6] : List Int) ≠ [] ∧
    ((assignMessagesToUsers ["a"] [5, 6] ConvType.good).getD 0 mDflt ∈
        assignMessagesToUsers ["a"] [5, 6] ConvType.good) ∧
    ((assignMessagesToUsers ["a"] [5, 6] ConvType.good).getD 0 mDflt).date ∈
      ([5, 6] : List Int) :=
  ⟨by decide, by decide,
    C10_dates_in_window ["a"] [5, 6] ConvType.good (by decide) _ (by decide)⟩

end NoHello

namespace NoHello

/-! ### C2: within-date chronological order fails at a concrete input -/

/-- C2 evaluation at the failing input: at a Thursday current date
(day 4 mod 7 = Thursday) with 12 messages in the `good` scenario,
messages 4 and 5 share a calendar date but message 5 (support,
4:07 PM) is strictly earlier in the day than message 4 (user,
5:26 PM), so within-date timestamps are not non-decreasing in index
order. -/
theorem C2_order_violation_at_failing_input :
    ((runPipeline msgs12 ConvType.good 4).getD 4 mDflt).date =
      ((runPipeline msgs12 ConvType.good 4).getD 5 mDflt).date ∧
    timeOfDayMinutes (((runPipeline msgs12 ConvType.good 4).getD 5 mDflt).timestamp) <
      timeOfDayMinutes (((runPipeline msgs12 ConvType.good 4).getD 4 mDflt).timestamp) := by
  decide

/-! ### C3: the business-hours rollover is vacuous for support messages -/

lemma support_raw_time_ne (dbIdx : Nat) (lastIdx : Option Nat) :
    (businessHoursTimes.getD (selectTimeIndex businessHoursTimes dbIdx lastIdx) nineAM ==
      ({ hour := 7, minute := 15, period := Period.PM } : TimeS)) = false := by
  have h : selectTimeIndex businessHoursTimes dbIdx lastIdx < 4 :=
    selectTimeIndex_lt _ _ _ (by decide)
  have h4 : selectTimeIndex businessHoursTimes dbIdx lastIdx = 0 ∨
      selectTimeIndex businessHoursTimes dbIdx lastIdx = 1 ∨
      selectTimeIndex businessHoursTimes dbIdx lastIdx = 2 ∨
      selectTimeIndex businessHoursTimes dbIdx lastIdx = 3 := by omega
  rcases h4 with h4 | h4 | h4 | h4 <;> rw [h4] <;> rfl

/-- C3 counterexample: no selection state whatsoever (hence no input)
makes a support message's selected raw time equal to 7:15 PM, because
support messages draw only from the 4-element business-hours list;
the "19:15" raw time the claim asserts reachable does not exist. -/
theorem C3_no_after_hours_raw_time :
    (∃ dbIdx : Nat, ∃ lastIdx : Option Nat,
      businessHoursTimes.getD (selectTimeIndex businessHoursTimes dbIdx lastIdx) nineAM =
        { hour := 7, minute := 15, period := Period.PM }) = False := by
  apply eq_false
  rintro ⟨dbIdx, lastIdx, h⟩
  have hne := support_raw_time_ne dbIdx lastIdx
  rw [h] at hne
  simp at hne

/-- C3 amended: a support message's selected raw time is always within
business hours (it is drawn from the business-hours list), so the
reassignment never fires; and had a selected time fallen outside
9:00-17:00 on a weekday date, `adjustToBusinessHours` would indeed
move it to 9:00 AM on the next business day. -/
theorem C3_amended_rollover (dbIdx : Nat) (lastIdx : Option Nat) (d : Int) (t : TimeS)
    (hw : isWeekend d = false) (hb : isWithinBusinessHours t = false) :
    isWithinBusinessHours
      (businessHoursTimes.getD (selectTimeIndex businessHoursTimes dbIdx lastIdx)
        nineAM) = true ∧
    adjustToBusinessHours d t = (getNextBusinessDay d, nineAM) := by
  refine ⟨bh_getD_within _, ?_⟩
  unfold adjustToBusinessHours
  rw [hw, hb]
  simp

theorem C3_amended_witness :
    isWeekend (4 : Int) = false ∧
    isWithinBusinessHours ({ hour := 7, minute := 15, period := Period.PM } : TimeS) = false ∧
    adjustToBusinessHours 4 { hour := 7, minute := 15, period := Period.PM } =
      (getNextBusinessDay 4, nineAM) :=
  ⟨by decide, by decide,
    (C3_amended_rollover 0 none 4 { hour := 7, minute := 15, period := Period.PM }
      (by decide) (by decide)).2⟩

/-! ### C8: a single-message conversation lands on today -/

lemma mappedDateIndex_one_zero (len : Nat) (h : 0 < len) :
    mappedDateIndex 1 0 len = len - 1 := by
  unfold mappedDateIndex
  rw [if_pos (by omega : (0 : Nat) < 1)]
  omega

/-- C8: for every scenario and fixed current date, the pipeline on a
one-message list produces exactly one assigned message, dated to the
last entry of the date window, which is the current date. -/
theorem C8_single_message (text : String) (type : ConvType) (today : Int) :
    (runPipeline [text] type today).length = 1 ∧
    ((runPipeline [text] type today).getD 0 mDflt).date =
      (generateDates today).getD ((generateDates today).length - 1) 0 ∧
    ((runPipeline [text] type today).getD 0 mDflt).date = today := by
  have hone : runPipeline [text] type today =
      [(timestampStep [0] 1 (generateDates today) (fun _ => none) 0
        { text := text, sender := Sender.you, date := 0, timestamp := nineAM,
          dateBreakIndex := 0 }).2] := by
    cases type <;> rfl
  have hdate : ((timestampStep [0] 1 (generateDates today) (fun _ => none) 0
      { text := text, sender := Sender.you, date := 0, timestamp := nineAM,
        dateBreakIndex := 0 }).2).date = today := by
    rw [timestampStep_you_snd _ _ _ _ _ _ rfl]
    show (generateDates today).getD
      (mappedDateIndex 1 (findDateBreakIndex [0] 0) (generateDates today).length) 1 = today
    rw [show findDateBreakIndex [0] 0 = 0 from rfl]
    rw [generateDates_length, mappedDateIndex_one_zero _ (by omega)]
    rw [show genDaysBack today + 1 - 1 = genDaysBack today from by omega]
    rw [generateDates_getD today _ 1 (by omega)]
    omega
  refine ⟨by rw [hone]; rfl, ?_, ?_⟩
  · rw [hone]
    show ((timestampStep [0] 1 (generateDates today) (fun _ => none) 0
      { text := text, sender := Sender.you, date := 0, timestamp := nineAM,
        dateBreakIndex := 0 }).2).date = _
    rw [hdate, generateDates_length]
    rw [show genDaysBack today + 1 - 1 = genDaysBack today from by omega]
    rw [generateDates_getD today _ 0 (by omega)]
    omega
  · rw [hone]
    exact hdate

end NoHello
